import Mathlib

/-!
Verification development for the `solana-verifiable-build` CLI.

The visible source is `src/main.rs`. The modules `api`, `image_config` and
`solana_program` are declared there but their files are not present in the
repository snapshot; definitions that embed those modules are modelled from
the specification and say so in their doc comments. Everything else is a
shallow embedding of `src/main.rs`.

Bytes are modelled as natural numbers, byte sequences as lists of naturals,
public keys and hashes as strings, and the fallible Rust functions as
`Except`-valued Lean functions. Network interaction is made observable by
returning, next to the result, the list of network calls the operation
performed, in order.
-/

namespace SVB

/-- The devnet RPC endpoint string from `get_network_url`. -/
def devnetUrl : String := "https://api.devnet.solana.com"

/-- The mainnet RPC endpoint string from `get_network_url`. -/
def mainnetUrl : String := "https://api.mainnet-beta.solana.com"

/-- Embedding of `get_network_url` (src/main.rs, lines 39-45): a `match` on
the network name with a catch-all arm returning the devnet endpoint. -/
def get_network_url (network_str : String) : String :=
  match network_str with
  | "devnet" | "dev" | "d" => devnetUrl
  | "mainnet" | "main" | "m" => mainnetUrl
  | _ => devnetUrl

/-! ## Termination signal

`setup_signal_handler` (src/main.rs, lines 70-78) spawns one thread that
waits on a stream of delivered SIGINT/SIGTERM signals, stores `true` into
the shared atomic flag on the first one, and breaks out of the loop.  The
flag is created as `false` in `main` (line 89). -/

/-- The two OS signals the handler registers for. -/
inductive Sig
  | sigint
  | sigterm
deriving DecidableEq

/-- Operations the program performs on the shared termination flag: the
handler's `store(true, Relaxed)` and a read.  `Modelled from the spec:` the
readers live in the missing modules `solana_program` and `api`; the spec
says the flag is "read by every blocking loop" and mutated nowhere else. -/
inductive TermFlagOp
  | storeTrue
  | load
deriving DecidableEq

/-- Effect of one flag operation on the flag's value. -/
def apply_flag_op (b : Bool) : TermFlagOp → Bool
  | .storeTrue => true
  | .load => b

/-- Flag value after a sequence of flag operations. -/
def run_flag_ops (b : Bool) (ops : List TermFlagOp) : Bool :=
  ops.foldl apply_flag_op b

/-- Embedding of the signal-handler thread body (src/main.rs, lines 72-77):
given the flag's current value and the finite sequence of signals delivered
to the thread, return the final flag value, the list of flag operations the
thread performed, and the signals it never handled (because it broke out of
the loop).  An empty delivery list models the thread still blocked in
`signals.forever()`. -/
def handler_run (flag : Bool) : List Sig → Bool × List TermFlagOp × List Sig
  | [] => (flag, [], [])
  | _ :: rest => (true, [.storeTrue], rest)

/-! ## Buffer upload protocol (chunking)

`Modelled from the spec:` the chunking step of `upload_program` lives in the
missing module `solana_program`.  Spec §4.1: "split the binary into
fixed-size chunks (chunk size bounded by the maximum transaction payload the
network accepts) and submit one write transaction per chunk, each carrying
an offset and the chunk bytes", writes issued in strictly increasing offset
order into a buffer account pre-allocated to the binary's size. -/

/-- Split `data` into consecutive chunks of `chunkSize` bytes (the last one
possibly shorter), tagging each chunk with its byte offset starting at
`off`.  A zero chunk size produces no chunks (the real chunk size is a
positive constant derived from the transaction payload limit). -/
def split_chunks (chunkSize off : Nat) (data : List Nat) : List (Nat × List Nat) :=
  if _h : chunkSize = 0 ∨ data = [] then []
  else (off, data.take chunkSize) :: split_chunks chunkSize (off + chunkSize) (data.drop chunkSize)
termination_by data.length
decreasing_by
  simp only [not_or] at _h
  simp only [List.length_drop]
  have hd : data.length ≠ 0 := fun h0 => _h.2 (List.eq_nil_of_length_eq_zero h0)
  omega

/-- One chunk-write transaction's effect on the buffer account data: copy
`bytes` into the buffer at byte offset `off`. -/
def write_at (buf : List Nat) (off : Nat) (bytes : List Nat) : List Nat :=
  buf.take off ++ bytes ++ buf.drop (off + bytes.length)

/-- Replay the chunk writes, in order, against a buffer: the reassembly of
the chunks by offset. -/
def reassemble (chunks : List (Nat × List Nat)) (buf : List Nat) : List Nat :=
  chunks.foldl (fun b c => write_at b c.1 c.2) buf

/-! ## Network calls and the upload / close operations -/

/-- One network interaction, as observed at the chain-client and
remote-service boundaries.  `fetchProgramAccount` and `jobPoll` are reads;
the others submit a transaction or a job. -/
inductive NetCall
  | createBuffer (size : Nat)
  | writeChunk (offset : Nat) (bytes : List Nat)
  | finalize
  | fetchProgramAccount (programId : String)
  | closeTx (programId : String)
  | jobSubmit (jobId : String)
  | jobPoll (jobId : String)
deriving DecidableEq

/-- Whether a network call submits a state-changing transaction (or job), as
opposed to a read-only account fetch or status poll. -/
def NetCall.isSubmission : NetCall → Bool
  | .createBuffer _ => true
  | .writeChunk _ _ => true
  | .finalize => true
  | .closeTx _ => true
  | .jobSubmit _ => true
  | .fetchProgramAccount _ => false
  | .jobPoll _ => false

/-- Errors reported by the upload operation before or during the on-chain
write path. -/
inductive UploadErr
  | emptyBinary
  | tooLarge
  | uploadCancelled
deriving DecidableEq

/-- `Modelled from the spec:` `upload_program` from the missing module
`solana_program` (spec §4.1).  The binary must be non-empty and within the
loader's maximum program size; both constraints are checked before any
network call, so the error outcomes carry an empty call trace.  On the happy
path the operation creates the buffer, writes every chunk in offset order
and finalizes.  The termination flag is modelled as the value read at the
first checkpoint; when set, the operation stops before creating the
buffer. -/
def upload_program (maxProgramSize chunkSize : Nat) (binary : List Nat)
    (terminated : Bool) : Except UploadErr Unit × List NetCall :=
  if binary.length = 0 then (.error .emptyBinary, [])
  else if maxProgramSize < binary.length then (.error .tooLarge, [])
  else if terminated then (.error .uploadCancelled, [])
  else (.ok (),
    .createBuffer binary.length ::
      ((split_chunks chunkSize 0 binary).map (fun c => .writeChunk c.1 c.2) ++ [.finalize]))

/-- The slice of an upgradeable program's on-chain state the close path
reads: its current upgrade authority, if any. -/
structure ProgramAccount where
  upgradeAuthority : Option String
deriving DecidableEq

/-- Errors reported by the close operation. -/
inductive CloseErr
  | programNotFound
  | authorityMismatch
  | closeCancelled
deriving DecidableEq

/-- `Modelled from the spec:` `process_close` from the missing module
`solana_program` (spec §4.2).  It fetches the program's account (one network
read, whose outcome `fetch` is the chain's response), rejects a missing
account or an upgrade authority different from the payer without submitting
anything, checks the termination flag once, and otherwise submits the single
close transaction. -/
def process_close (payer programId : String) (fetch : Option ProgramAccount)
    (terminated : Bool) : Except CloseErr Unit × List NetCall :=
  match fetch with
  | none => (.error .programNotFound, [.fetchProgramAccount programId])
  | some acct =>
    if acct.upgradeAuthority ≠ some payer then
      (.error .authorityMismatch, [.fetchProgramAccount programId])
    else if terminated then
      (.error .closeCancelled, [.fetchProgramAccount programId])
    else
      (.ok (), [.fetchProgramAccount programId, .closeTx programId])

/-! ## Top-level dispatch (`main`, src/main.rs lines 80-102) -/

/-- The parsed subcommand (src/main.rs lines 58-68).  For `upload` the bytes
at `program_path` stand in for the path; for `close` the raw program-id
string is kept, since `main` parses it. -/
inductive Command
  | upload (binary : List Nat)
  | close (program_id : String)

/-- Results of the external collaborator calls `main` makes, supplied as
inputs to the embedding: config loading, keypair reading, program-id
parsing and the close path's account fetch. -/
structure MainEnv where
  configLoadOk : Bool
  keypairOk : Bool
  payer : String
  command : Command
  /-- `program_id.parse()` result: the parsed pubkey, when the string is a
  valid base58 pubkey (parsing itself is external, in `solana_sdk`). -/
  parsedPubkey : Option String
  fetch : Option ProgramAccount
  terminated : Bool

/-- Top-level error, matching the `?`-propagation in `main`. -/
inductive MainErr
  | configLoadFailed
  | keypairReadFailed
  | pubkeyParseFailed
  | uploadFailed (e : UploadErr)
  | closeFailed (e : CloseErr)
deriving DecidableEq

/-- Embedding of `main` (src/main.rs, lines 80-102): resolve the network
URL (pure), load the config and read the keypair — each failure propagating
immediately via `?` — then dispatch on the subcommand; `close` first parses
the program id.  The second component is the ordered list of network calls
the run performed. -/
def main_run (maxProgramSize chunkSize : Nat) (env : MainEnv) :
    Except MainErr Unit × List NetCall :=
  if env.configLoadOk = false then (.error .configLoadFailed, [])
  else if env.keypairOk = false then (.error .keypairReadFailed, [])
  else
    match env.command with
    | .upload binary =>
        let r := upload_program maxProgramSize chunkSize binary env.terminated
        (r.1.mapError .uploadFailed, r.2)
    | .close _ =>
        match env.parsedPubkey with
        | none => (.error .pubkeyParseFailed, [])
        | some pk =>
            let r := process_close env.payer pk env.fetch env.terminated
            (r.1.mapError .closeFailed, r.2)

/-- Exit status of the process: a Rust `main` returning `Result` exits with
status 0 on `Ok` and a non-zero status on `Err`. -/
def process_exit_code (r : Except MainErr Unit) : Nat :=
  match r with
  | .ok _ => 0
  | .error _ => 1

/-- The four precondition errors named by the error taxonomy (spec §7):
invalid program id, binary too large, authority mismatch, unreadable
keypair. -/
def MainErr.isPrecondition : MainErr → Bool
  | .keypairReadFailed => true
  | .pubkeyParseFailed => true
  | .uploadFailed .tooLarge => true
  | .closeFailed .authorityMismatch => true
  | _ => false

/-! ## Remote verification coordinator -/

/-- Job status as reported by the remote service (spec §6). -/
inductive JobStatus
  | submitted
  | building
  | succeeded (hash : String)
  | failed (reason : String)
  | jobCancelled
deriving DecidableEq

/-- Outcome surfaced by the coordinator once polling stops. -/
inductive VerifyOutcome
  | verifiedSuccess
  | verifiedMismatch (computed onchain : String)
  | jobFailed (reason : String)
  | pollCancelled
deriving DecidableEq

/-- `Modelled from the spec:` the polling loop of the missing module `api`
(spec §4.3).  Each poll step is a pair of the termination flag's value at
the checkpoint and the status the service returns.  The loop reports
cancellation when the flag is set, stops on terminal statuses — on
`succeeded` comparing the computed hash with the on-chain program's hash and
reporting verified-success or verified-mismatch accordingly — and keeps
polling on intermediate ones.  `none` means the finite observation ran out
while the job was still in progress. -/
def poll_job (onchainHash : String) : List (Bool × JobStatus) → Option VerifyOutcome
  | [] => none
  | (term, st) :: rest =>
    if term then some .pollCancelled
    else
      match st with
      | .succeeded h =>
          some (if h = onchainHash then .verifiedSuccess else .verifiedMismatch h onchainHash)
      | .failed r => some (.jobFailed r)
      | .jobCancelled => some (.jobFailed "cancelled")
      | .submitted => poll_job onchainHash rest
      | .building => poll_job onchainHash rest

end SVB

namespace SVB

/-- Unfolding equation for `split_chunks`. -/
theorem split_chunks_eq (chunkSize off : Nat) (data : List Nat) :
    split_chunks chunkSize off data =
      if chunkSize = 0 ∨ data = [] then []
      else (off, data.take chunkSize) ::
        split_chunks chunkSize (off + chunkSize) (data.drop chunkSize) := by
  rw [split_chunks]
  by_cases h : chunkSize = 0 ∨ data = [] <;> simp [h]

/-- Folding one chunk write peels off the head of `reassemble`. -/
theorem reassemble_cons (c : Nat × List Nat) (l : List (Nat × List Nat)) (buf : List Nat) :
    reassemble (c :: l) buf = reassemble l (write_at buf c.1 c.2) := rfl

/-- Generalized round trip: replaying the chunks of `d` tagged from offset
`pre.length` onto a buffer `pre ++ rest` rewrites the region at that offset
with `d` and touches nothing before it. -/
theorem reassemble_split_chunks (chunkSize : Nat) (hcs : 0 < chunkSize)
    (d pre rest : List Nat) :
    reassemble (split_chunks chunkSize pre.length d) (pre ++ rest) =
      pre ++ d ++ rest.drop d.length := by
  have main : ∀ (n : Nat) (d pre rest : List Nat), d.length ≤ n →
      reassemble (split_chunks chunkSize pre.length d) (pre ++ rest) =
        pre ++ d ++ rest.drop d.length := by
    intro n
    induction n with
    | zero =>
        intro d pre rest hd
        have : d = [] := List.eq_nil_of_length_eq_zero (Nat.le_zero.mp hd)
        subst this
        simp [split_chunks_eq, reassemble]
    | succ n ih =>
        intro d pre rest hd
        by_cases hdnil : d = []
        · subst hdnil
          simp [split_chunks_eq, reassemble]
        · have hcs0 : ¬ chunkSize = 0 := Nat.pos_iff_ne_zero.mp hcs
          rw [split_chunks_eq, if_neg (not_or.mpr ⟨hcs0, hdnil⟩)]
          by_cases hlen : d.length ≤ chunkSize
          · -- the whole remainder fits in one chunk
            have htake : d.take chunkSize = d := List.take_of_length_le hlen
            have hdrop : d.drop chunkSize = [] := List.drop_eq_nil_iff.mpr hlen
            rw [htake, hdrop, split_chunks_eq, if_pos (Or.inr rfl)]
            show write_at (pre ++ rest) pre.length d = pre ++ d ++ rest.drop d.length
            unfold write_at
            rw [List.take_left, List.drop_append]
          · push_neg at hlen
            -- first chunk is full; recurse on the remainder
            have hlentake : (d.take chunkSize).length = chunkSize :=
              List.length_take_of_le (Nat.le_of_lt hlen)
            have hbuf : write_at (pre ++ rest) pre.length (d.take chunkSize) =
                (pre ++ d.take chunkSize) ++ rest.drop chunkSize := by
              unfold write_at
              rw [hlentake, List.take_left, List.drop_append, List.append_assoc]
            have hofs : pre.length + chunkSize = (pre ++ d.take chunkSize).length := by
              simp [hlentake]
            rw [reassemble_cons, hbuf, hofs,
              ih (d.drop chunkSize) (pre ++ d.take chunkSize) (rest.drop chunkSize)
                (by simp only [List.length_drop]; omega)]
            rw [List.drop_drop, List.length_drop,
              show chunkSize + (d.length - chunkSize) = d.length by omega,
              List.append_assoc pre, List.take_append_drop]
  exact main d.length d pre rest (Nat.le_refl _)

/-- Claim C1: for every binary within the maximum program size and any
positive chunk size, splitting it into offset-tagged chunks and replaying
the chunk writes by offset into a zero-initialized buffer of the binary's
size reproduces the original byte sequence exactly. -/
theorem chunk_round_trip (maxProgramSize chunkSize : Nat) (data : List Nat)
    (hcs : 0 < chunkSize) (_hsize : data.length ≤ maxProgramSize) :
    reassemble (split_chunks chunkSize 0 data) (List.replicate data.length 0) = data := by
  have h := reassemble_split_chunks chunkSize hcs data [] (List.replicate data.length 0)
  simpa using h

/-- Concrete instance of the chunking round trip: a 7-byte binary split in
3-byte chunks under a 10-byte size ceiling reassembles to itself. -/
theorem chunk_round_trip_witness :
    0 < 3 ∧ ([1, 2, 3, 4, 5, 6, 7] : List Nat).length ≤ 10 ∧
    reassemble (split_chunks 3 0 [1, 2, 3, 4, 5, 6, 7])
      (List.replicate ([1, 2, 3, 4, 5, 6, 7] : List Nat).length 0) = [1, 2, 3, 4, 5, 6, 7] := by
  refine ⟨by decide, by decide, ?_⟩
  exact chunk_round_trip 10 3 [1, 2, 3, 4, 5, 6, 7] (by decide) (by decide)

/-- Claim C4: the termination signal, once set, is never cleared — starting
from a set flag, no sequence of the program's flag operations can yield an
unset flag. -/
theorem termination_signal_never_cleared (ops : List TermFlagOp) :
    run_flag_ops true ops = true := by
  induction ops with
  | nil => rfl
  | cons op rest ih =>
      cases op <;> simpa [run_flag_ops, apply_flag_op] using ih

/-- Claim C5: whichever of SIGINT or SIGTERM arrives first, the handler
thread performs exactly one flag operation — the single unset-to-set store —
leaves the flag set, and exits without handling the remaining signals. -/
theorem handler_sets_once_then_exits (flag : Bool) (s : Sig) (rest : List Sig) :
    handler_run flag (s :: rest) = (true, [TermFlagOp.storeTrue], rest) := by
  cases s <;> rfl

/-- Claim C3: `get_network_url` maps the recognized devnet names to the
devnet endpoint, the recognized mainnet names to the mainnet endpoint, and
every other string falls back to the devnet endpoint. -/
theorem get_network_url_cases (s : String) :
    get_network_url s =
      if s = "mainnet" ∨ s = "main" ∨ s = "m" then mainnetUrl else devnetUrl := by
  unfold get_network_url
  split <;> simp_all

/-- Claim C10: `get_network_url` is total with range contained in the two
endpoints, and it accepts the abbreviations "dev" and "d" for devnet and
"main" and "m" for mainnet, beyond the full names. -/
theorem get_network_url_total_and_abbrevs :
    (∀ s : String, get_network_url s = devnetUrl ∨ get_network_url s = mainnetUrl) ∧
    get_network_url "devnet" = devnetUrl ∧
    get_network_url "dev" = devnetUrl ∧
    get_network_url "d" = devnetUrl ∧
    get_network_url "mainnet" = mainnetUrl ∧
    get_network_url "main" = mainnetUrl ∧
    get_network_url "m" = mainnetUrl := by
  refine ⟨fun s => ?_, rfl, rfl, rfl, rfl, rfl, rfl⟩
  unfold get_network_url
  split <;> simp

/-- Claim C2: a binary larger than the loader's maximum program size is
rejected as a constraint violation with an empty network-call trace — the
rejection happens before any network call. -/
theorem upload_rejects_oversized (maxProgramSize chunkSize : Nat) (binary : List Nat)
    (terminated : Bool) (h : maxProgramSize < binary.length) :
    upload_program maxProgramSize chunkSize binary terminated =
      (Except.error UploadErr.tooLarge, []) := by
  unfold upload_program
  have h0 : ¬ binary.length = 0 := by omega
  simp [h0, h]

/-- Concrete instance of the oversized-binary rejection: a 5-byte binary
against a 4-byte ceiling. -/
theorem upload_rejects_oversized_witness :
    4 < ([0, 0, 0, 0, 0] : List Nat).length ∧
    upload_program 4 2 [0, 0, 0, 0, 0] false = (Except.error UploadErr.tooLarge, []) := by
  refine ⟨by decide, ?_⟩
  exact upload_rejects_oversized 4 2 [0, 0, 0, 0, 0] false (by decide)

/-- Any error outcome of the upload operation leaves an empty network-call
trace: all of its checks precede the first network call. -/
theorem upload_error_trace (maxProgramSize chunkSize : Nat) (binary : List Nat)
    (terminated : Bool) (e : UploadErr)
    (he : (upload_program maxProgramSize chunkSize binary terminated).1 = .error e) :
    (upload_program maxProgramSize chunkSize binary terminated).2 = [] := by
  unfold upload_program at he ⊢
  split_ifs at he ⊢ <;> simp_all

/-- Any error outcome of the close operation leaves exactly the single
account fetch in the network-call trace: no transaction is submitted and
nothing is retried. -/
theorem close_error_trace (payer pid : String) (fetch : Option ProgramAccount)
    (terminated : Bool) (e : CloseErr)
    (he : (process_close payer pid fetch terminated).1 = .error e) :
    (process_close payer pid fetch terminated).2 = [NetCall.fetchProgramAccount pid] := by
  cases fetch with
  | none => rfl
  | some acct =>
      by_cases ha : acct.upgradeAuthority = some payer
      · by_cases ht : terminated
        · simp [process_close, ha, ht]
        · exfalso
          simp [process_close, ha, ht] at he
      · simp [process_close, ha]

/-- Counterexample to claim C6 as stated: with an existing program whose
upgrade authority differs from the payer, the close command rejects the
authority mismatch — one of the listed precondition errors — yet a network
call (the account fetch that revealed the authority) has already been made,
so the rejection is not "before any network call". -/
theorem precondition_before_network_counterexample :
    (main_run 4 2
        { configLoadOk := true, keypairOk := true, payer := "payer",
          command := Command.close "prog", parsedPubkey := some "prog",
          fetch := some ⟨some "other"⟩, terminated := false }).1 =
      Except.error (MainErr.closeFailed CloseErr.authorityMismatch) ∧
    MainErr.isPrecondition (MainErr.closeFailed CloseErr.authorityMismatch) = true ∧
    (main_run 4 2
        { configLoadOk := true, keypairOk := true, payer := "payer",
          command := Command.close "prog", parsedPubkey := some "prog",
          fetch := some ⟨some "other"⟩, terminated := false }).2 ≠ [] := by
  refine ⟨rfl, rfl, by decide⟩

/-- Claim C6 (amended): whenever a run ends in one of the four precondition
errors, an unreadable keypair, an unparseable program id and an oversized
binary leave an empty network-call trace — they are rejected before any
network call — while an authority mismatch leaves exactly the single
read-only account fetch that revealed the authority; in every case no
state-changing call is submitted and nothing is retried (the trace holds at
most one call). -/
theorem preconditions_never_submit (maxProgramSize chunkSize : Nat) (env : MainEnv)
    (e : MainErr) (he : (main_run maxProgramSize chunkSize env).1 = .error e)
    (hp : e.isPrecondition = true) :
    ((e = MainErr.keypairReadFailed ∨ e = MainErr.pubkeyParseFailed ∨
        e = MainErr.uploadFailed UploadErr.tooLarge) →
      (main_run maxProgramSize chunkSize env).2 = []) ∧
    (e = MainErr.closeFailed CloseErr.authorityMismatch →
      ∃ pk, env.parsedPubkey = some pk ∧
        (main_run maxProgramSize chunkSize env).2 = [NetCall.fetchProgramAccount pk]) ∧
    (∀ c ∈ (main_run maxProgramSize chunkSize env).2, c.isSubmission = false) ∧
    (main_run maxProgramSize chunkSize env).2.length ≤ 1 := by
  rcases env with ⟨cfg, kp, payer, cmd, pks, fetch, term⟩
  cases cfg
  · -- config loading failed: not one of the four precondition errors
    exfalso
    simp [main_run] at he
    subst he
    simp [MainErr.isPrecondition] at hp
  · cases kp
    · simp [main_run] at he
      subst he
      refine ⟨fun _ => ?_, fun h2 => ?_, ?_, ?_⟩
      · simp [main_run]
      · simp at h2
      · simp [main_run]
      · simp [main_run]
    · cases cmd with
      | upload binary =>
          cases hu : (upload_program maxProgramSize chunkSize binary term).1 with
          | ok v =>
              exfalso
              simp [main_run, hu, Except.mapError] at he
          | error eu =>
              have ht := upload_error_trace maxProgramSize chunkSize binary term eu hu
              simp [main_run, hu, Except.mapError] at he
              subst he
              refine ⟨fun _ => ?_, fun h2 => ?_, ?_, ?_⟩
              · simp [main_run, ht]
              · simp at h2
              · simp [main_run, ht]
              · simp [main_run, ht]
      | close pid =>
          cases pks with
          | none =>
              simp [main_run] at he
              subst he
              refine ⟨fun _ => ?_, fun h2 => ?_, ?_, ?_⟩
              · simp [main_run]
              · simp at h2
              · simp [main_run]
              · simp [main_run]
          | some pkv =>
              cases hc : (process_close payer pkv fetch term).1 with
              | ok v =>
                  exfalso
                  simp [main_run, hc, Except.mapError] at he
              | error ec =>
                  have ht := close_error_trace payer pkv fetch term ec hc
                  simp [main_run, hc, Except.mapError] at he
                  subst he
                  refine ⟨fun h1 => ?_, fun _ => ?_, ?_, ?_⟩
                  · rcases h1 with h1 | h1 | h1 <;> simp at h1
                  · exact ⟨pkv, rfl, by simp [main_run, ht]⟩
                  · simp [main_run, ht, NetCall.isSubmission]
                  · simp [main_run, ht]

/-- Concrete instance of the amended claim C6: a close command whose
program-id string does not parse fails with the parse precondition error
and an empty network-call trace — rejected before any network call. -/
theorem preconditions_never_submit_witness :
    (main_run 4 2
        { configLoadOk := true, keypairOk := true, payer := "payer",
          command := Command.close "not-a-pubkey", parsedPubkey := none,
          fetch := none, terminated := false }).1 =
      Except.error MainErr.pubkeyParseFailed ∧
    MainErr.isPrecondition MainErr.pubkeyParseFailed = true ∧
    (main_run 4 2
        { configLoadOk := true, keypairOk := true, payer := "payer",
          command := Command.close "not-a-pubkey", parsedPubkey := none,
          fetch := none, terminated := false }).2 = [] := by
  refine ⟨rfl, rfl, ?_⟩
  exact (preconditions_never_submit 4 2
    { configLoadOk := true, keypairOk := true, payer := "payer",
      command := Command.close "not-a-pubkey", parsedPubkey := none,
      fetch := none, terminated := false }
    MainErr.pubkeyParseFailed rfl rfl).1 (Or.inr (Or.inl rfl))

/-- Claim C7: `main` propagates every sub-operation error to the top-level
dispatch unchanged — config loading, keypair reading, program-id parsing,
upload and close failures each surface as the corresponding top-level error
— and the process exit status is zero exactly on success, so every error
exits non-zero and none is swallowed. -/
theorem main_surfaces_errors (maxProgramSize chunkSize : Nat) (env : MainEnv) :
    (process_exit_code (main_run maxProgramSize chunkSize env).1 = 0 ↔
      (main_run maxProgramSize chunkSize env).1 = Except.ok ()) ∧
    (env.configLoadOk = false →
      (main_run maxProgramSize chunkSize env).1 = Except.error MainErr.configLoadFailed) ∧
    (env.configLoadOk = true → env.keypairOk = false →
      (main_run maxProgramSize chunkSize env).1 = Except.error MainErr.keypairReadFailed) ∧
    (∀ binary e, env.configLoadOk = true → env.keypairOk = true →
      env.command = Command.upload binary →
      (upload_program maxProgramSize chunkSize binary env.terminated).1 = .error e →
      (main_run maxProgramSize chunkSize env).1 = Except.error (MainErr.uploadFailed e)) ∧
    (∀ pid, env.configLoadOk = true → env.keypairOk = true →
      env.command = Command.close pid → env.parsedPubkey = none →
      (main_run maxProgramSize chunkSize env).1 = Except.error MainErr.pubkeyParseFailed) ∧
    (∀ pid pk e, env.configLoadOk = true → env.keypairOk = true →
      env.command = Command.close pid → env.parsedPubkey = some pk →
      (process_close env.payer pk env.fetch env.terminated).1 = .error e →
      (main_run maxProgramSize chunkSize env).1 = Except.error (MainErr.closeFailed e)) := by
  refine ⟨?_, ?_, ?_, ?_, ?_, ?_⟩
  · cases hr : (main_run maxProgramSize chunkSize env).1 with
    | ok v => simp [process_exit_code]
    | error e => simp [process_exit_code]
  · intro hc
    simp [main_run, hc]
  · intro hc hk
    simp [main_run, hc, hk]
  · intro binary e hc hk hcmd hu
    simp [main_run, hc, hk, hcmd, hu, Except.mapError]
  · intro pid hc hk hcmd hpk
    simp [main_run, hc, hk, hcmd, hpk]
  · intro pid pk e hc hk hcmd hpk hcl
    simp [main_run, hc, hk, hcmd, hpk, hcl, Except.mapError]

/-- Concrete instance of error propagation: a run whose config loading
fails surfaces the config error at top level and exits non-zero. -/
theorem main_surfaces_errors_witness :
    (main_run 4 2
        { configLoadOk := false, keypairOk := true, payer := "p",
          command := Command.close "x", parsedPubkey := none,
          fetch := none, terminated := false }).1 =
      Except.error MainErr.configLoadFailed :=
  (main_surfaces_errors 4 2
    { configLoadOk := false, keypairOk := true, payer := "p",
      command := Command.close "x", parsedPubkey := none,
      fetch := none, terminated := false }).2.1 rfl

/-- Claim C8: when the fetched program account's upgrade authority differs
from the payer, the close protocol reports the authority mismatch and its
network-call trace contains no close transaction — only the account fetch
that revealed the mismatch. -/
theorem close_authority_mismatch_never_submits (payer pid : String)
    (acct : ProgramAccount) (terminated : Bool)
    (h : acct.upgradeAuthority ≠ some payer) :
    (process_close payer pid (some acct) terminated).1 =
      Except.error CloseErr.authorityMismatch ∧
    NetCall.closeTx pid ∉ (process_close payer pid (some acct) terminated).2 := by
  unfold process_close
  simp [h]

/-- Concrete instance of the authority-mismatch rejection. -/
theorem close_authority_mismatch_never_submits_witness :
    (ProgramAccount.mk (some "other")).upgradeAuthority ≠ some "payer" ∧
    ((process_close "payer" "prog" (some ⟨some "other"⟩) false).1 =
        Except.error CloseErr.authorityMismatch ∧
      NetCall.closeTx "prog" ∉ (process_close "payer" "prog" (some ⟨some "other"⟩) false).2) := by
  refine ⟨by decide, ?_⟩
  exact close_authority_mismatch_never_submits "payer" "prog" ⟨some "other"⟩ false (by decide)

/-- Claim C9: a job that polls as `Succeeded` with a hash equal to the
on-chain hash yields the verified-success outcome; a `Succeeded` job whose
hash differs yields the verified-mismatch outcome; and the two outcomes are
distinct values. -/
theorem verify_outcomes_distinguished (onchain h : String)
    (rest : List (Bool × JobStatus)) (hne : h ≠ onchain) :
    poll_job onchain ((false, JobStatus.succeeded onchain) :: rest) =
      some VerifyOutcome.verifiedSuccess ∧
    poll_job onchain ((false, JobStatus.succeeded h) :: rest) =
      some (VerifyOutcome.verifiedMismatch h onchain) ∧
    VerifyOutcome.verifiedSuccess ≠ VerifyOutcome.verifiedMismatch h onchain := by
  refine ⟨by simp [poll_job], by simp [poll_job, hne], by intro hcontra; cases hcontra⟩

/-- Concrete instance of the two distinguishable verification outcomes. -/
theorem verify_outcomes_distinguished_witness :
    ("B" : String) ≠ "A" ∧
    (poll_job "A" [(false, JobStatus.succeeded "A")] = some VerifyOutcome.verifiedSuccess ∧
      poll_job "A" [(false, JobStatus.succeeded "B")] =
        some (VerifyOutcome.verifiedMismatch "B" "A") ∧
      VerifyOutcome.verifiedSuccess ≠ VerifyOutcome.verifiedMismatch "B" "A") := by
  refine ⟨by decide, ?_⟩
  exact verify_outcomes_distinguished "A" "B" [] (by decide)

end SVB
